import Mathlib

/-!
Verification development for the RFP Radar bid scorer
(src/rfp_radar/rfp_radar_v83.py).

Strings are modelled as lists of characters (`Str`); Python's `in`
substring test, `str.strip`, `str.replace` and the scorer's rule tables
are transcribed directly from the source.  Numeric scores are rationals,
since the domain table holds the literal value 58.5.  The ambient clock
read by the deadline filter (`datetime.now().date()`) is made an explicit
`today` parameter, and the dynamically built partner-agency list
(`WKMG_AGENCIES`, derived from the external sites_db.json configuration)
is a parameter of `calculate_score`, mirroring the static-rule-table
contract of the spec.
-/

abbrev Str := List Char

/-- Whitespace characters recognised by Python's `str.strip()` / `\s`
(ASCII subset, which covers the data handled by the program). -/
def isSpaceChar (c : Char) : Bool :=
  c == ' ' || c == '\t' || c == '\n' || c == '\r' || c == '\x0b' || c == '\x0c'

/-- Python `s.strip()`: drop leading and trailing whitespace. -/
def pyStrip (s : Str) : Str :=
  ((s.dropWhile isSpaceChar).reverse.dropWhile isSpaceChar).reverse

/-- Python `needle in hay` for strings: contiguous-substring test. -/
def pyIn (needle : Str) : Str → Bool
  | [] => needle.isEmpty
  | c :: rest => needle.isPrefixOf (c :: rest) || pyIn needle rest

/-- Python `kw.replace(' ', '')`. -/
def removeSpaces (s : Str) : Str := s.filter (fun c => !(c == ' '))

/-- Source line 364: `title.replace(' ', '').replace('-', '').replace('_', '')`. -/
def normalizeTitle (s : Str) : Str :=
  s.filter (fun c => !(c == ' ' || c == '-' || c == '_'))

/-- Python `s.replace(pat, '')` for a pattern known to be nonempty:
remove every (non-overlapping, left-to-right) occurrence of `pat`. -/
def removeOcc (pat : Str) (s : Str) : Str :=
  match s with
  | [] => []
  | c :: rest =>
    if pat.isPrefixOf (c :: rest) then removeOcc pat (rest.drop (pat.length - 1))
    else c :: removeOcc pat rest
termination_by s.length
decreasing_by
· simp only [List.length_drop, List.length_cons]; omega
· simp only [List.length_cons]; omega

/-- Python `str.lower()` on the alphabet the program handles (ASCII letters;
Korean syllables have no case). -/
def pyLowerChar (c : Char) : Char :=
  if 'A' ≤ c && c ≤ 'Z' then Char.ofNat (c.toNat + 32) else c

/-- Calendar dates as compared by `datetime.date`. -/
structure PyDate where
  year : Nat
  month : Nat
  day : Nat
deriving DecidableEq, Repr

/-- Boolean strict comparison of calendar dates (lexicographic), as
`deadline_dt.date() < datetime.now().date()` compares them. -/
def PyDate.ltb (a b : PyDate) : Bool :=
  Nat.blt a.year b.year ||
    (a.year == b.year &&
      (Nat.blt a.month b.month || (a.month == b.month && Nat.blt a.day b.day)))

def allDigits (s : Str) : Bool := s.all Char.isDigit

def digitsToNat (s : Str) : Nat :=
  s.foldl (fun acc c => acc * 10 + (c.toNat - 48)) 0

def isLeapYear (y : Nat) : Bool := (y % 4 == 0 && !(y % 100 == 0)) || y % 400 == 0

def daysInMonth (y m : Nat) : Nat :=
  if m == 2 then (if isLeapYear y then 29 else 28)
  else if m == 4 || m == 6 || m == 9 || m == 11 then 30
  else 31

/-- Model of `datetime.strptime(s, "%Y-%m-%d")` (source line 386): three
dash-separated digit groups (year up to 4 digits, month and day up to 2),
month 1..12, day valid for the month, year at least 1; anything else
raises in Python, i.e. parses to `none` here. -/
def parseDate (s : Str) : Option PyDate :=
  match s.splitOn '-' with
  | [ys, ms, ds] =>
    if (!ys.isEmpty && Nat.ble ys.length 4 && allDigits ys
        && !ms.isEmpty && Nat.ble ms.length 2 && allDigits ms
        && !ds.isEmpty && Nat.ble ds.length 2 && allDigits ds) then
      let y := digitsToNat ys
      let m := digitsToNat ms
      let d := digitsToNat ds
      if (Nat.ble 1 y && Nat.ble 1 m && Nat.ble m 12
          && Nat.ble 1 d && Nat.ble d (daysInMonth y m)) then
        some ⟨y, m, d⟩
      else none
    else none
  | _ => none

/-- Model of `int(float(budget_raw))` (source line 369) on the decimal
inputs the program receives: optional sign, digits with an optional
fractional part, truncated toward zero; any other shape raises in Python
and parses to `none` here (the caller then falls back to 0). -/
def parseBudget (s : Str) : Option Int :=
  let t := pyStrip s
  let signAndRest : Int × Str :=
    match t with
    | '-' :: rest => (-1, rest)
    | '+' :: rest => (1, rest)
    | _ => (1, t)
  match signAndRest.2.splitOn '.' with
  | [ip] =>
    if !ip.isEmpty && allDigits ip then some (signAndRest.1 * digitsToNat ip) else none
  | [ip, fp] =>
    if (!ip.isEmpty || !fp.isEmpty) && allDigits ip && allDigits fp then
      some (signAndRest.1 * digitsToNat ip)
    else none
  | _ => none

/-- Budget floor from the source: `MIN_BUDGET = 30000000`. -/
def MIN_BUDGET : Int := 30000000

/-- The static exclusion keyword list (source lines 171-209), in table order. -/
def EXCLUSIONS : List Str :=
  ["교육여행", "수학여행", "체험학습", "해외연수", "영어체험", "어학연수",
   "글로벌리더", "영어캠프", "해외캠프", "리더십프로그램", "글로컬리더십",
   "수련활동", "수련원", "청소년수련", "인재양성", "인력양성", "교육훈련",
   "역량강화", "역량강화교육", "교육영상", "교육프로그램", "연수프로그램",
   "의료기기", "의약품", "의약정보", "헬스케어", "임상", "진료", "처방",
   "시스템구축", "시스템개발", "플랫폼구축", "플랫폼개발",
   "앱개발", "웹개발", "DB구축", "정보화사업", "클라우드구축", "SW개발",
   "아키텍처개발", "개방형아키텍처", "공통아키텍처",
   "스포츠산업", "체육진흥", "스포츠클럽", "체육시설", "스포츠마케팅",
   "시설구축", "가공유통시설", "설계용역", "기본설계", "실시설계",
   "구축사업", "건립사업", "도시재생", "도시계획", "건축설계", "조경공사",
   "기획운영", "기획 및 운영", "운영대행", "전시운영", "전시대행",
   "박람회운영", "페어운영", "환영주간", "방문주간",
   "개막식", "폐막식", "기념식", "축제운영", "공연운영",
   "운송통관", "통관대행", "샘플운송", "물류대행", "배송대행",
   "창고관리", "입출고", "하역", "재고관리", "포장대행",
   "안전컨설팅", "안전관리컨설팅", "PSM", "공정안전", "안전매뉴얼",
   "산업안전", "재난안전", "소방안전", "안전진단", "안전점검", "소방점검",
   "규제기관", "규제기관장", "규제협의", "규제대응", "비상대응",
   "협력센터운영", "협력센터", "협의체운영", "협의체",
   "방송콘텐츠", "방송채널", "방송제작", "IPTV", "OTT", "스트리밍서비스",
   "다큐멘터리", "프로그램제작",
   "일터혁신", "노사관계", "노무관리", "상생컨설팅", "노동컨설팅",
   "인사관리", "급여관리", "채용대행",
   "회계감사", "세무대리", "법률자문",
   "경기동향조사", "통계조사", "실태조사", "모니터링조사", "사후모니터링",
   "모니터링연구", "모니터링용역", "점검용역", "감시용역",
   "기술분석", "국내외기술분석",
   "청소용역", "경비용역", "시설관리", "청소", "경비", "미화", "방범",
   "주차관리", "보안관리",
   "유지관리", "유지보수", "정비용역", "관측장비", "측정장비", "계측장비",
   "물품구매", "장비구매", "차량구매", "비품구매",
   "수출상담회", "상담회운영",
   "광고대행사선정", "홍보대행사선정", "종합광고홍보대행사선정",
   "광고홍보대행사", "대행사선정",
   "통학버스", "임차용역", "버스임차",
   "정책홍보컨설팅대행", "홍보컨설팅대행"].map String.toList

/-- Keyword list and score tiers of one capability domain. -/
structure DomainData where
  keywords : List Str
  max_score : ℚ
  partialScore : ℚ
  marginal : ℚ
deriving DecidableEq

/-- The four capability domains (source lines 214-273), in table
(insertion) order; the Python dict field `partial` is `partialScore` here. -/
def CORE_DOMAINS : List (Str × DomainData) :=
  [(("1_브랜드전략").toList,
    { keywords := ["브랜딩", "브랜드개발", "브랜드전략", "브랜드컨설팅", "리브랜딩",
        "브랜드마케팅", "브랜드커뮤니케이션",
        "포지셔닝", "컨셉", "네이밍", "슬로건",
        "BI개발", "CI개발", "아이덴티티", "브랜드아키텍처",
        "AI브랜딩", "AI브랜드", "AI기반브랜드", "생성AI브랜드"].map String.toList,
      max_score := 65, partialScore := 58.5, marginal := 52 }),
   (("2_상품화제품개발").toList,
    { keywords := ["상품화", "제품개발", "상품개발", "제품기획", "상품기획",
        "NPD", "컨셉개발", "경쟁력진단",
        "Value-Up", "밸류업", "시장기회", "신사업발굴",
        "상품기술서", "컨셉보드", "USP",
        "패키지디자인", "제품디자인", "디자인개발",
        "AI상품화", "AI제품개발", "AI기반상품"].map String.toList,
      max_score := 65, partialScore := 58.5, marginal := 52 }),
   (("3_유통판로개척").toList,
    { keywords := ["판로개척", "판로확대", "판로지원", "판로",
        "유통채널", "유통전략", "유통지원",
        "입점전략", "입점지원", "온라인입점",
        "라이브커머스", "기획전",
        "수출지원", "수출마케팅", "해외진출지원",
        "글로벌마케팅", "글로벌브랜드", "글로벌진출",
        "바이어발굴", "바이어매칭지원",
        "AI수출", "AI유통", "AI판로", "AI커머스",
        "크로스보더", "역직구", "글로벌이커머스"].map String.toList,
      max_score := 60, partialScore := 54, marginal := 48 }),
   (("4_마케팅커뮤니케이션").toList,
    { keywords := ["마케팅전략", "마케팅기획", "마케팅컨설팅", "통합마케팅",
        "디지털마케팅", "온라인마케팅", "콘텐츠마케팅",
        "홍보마케팅", "마케팅홍보",
        "홍보전략", "홍보기획", "홍보캠페인", "PR전략", "PR기획",
        "캠페인", "프로모션", "IMC",
        "SNS운영", "SNS콘텐츠", "SNS마케팅",
        "콘텐츠기획", "콘텐츠전략",
        "누리소통망", "소셜미디어",
        "광고기획", "광고전략",
        "AI마케팅", "AI홍보", "AI콘텐츠", "AI광고",
        "생성AI마케팅", "생성AI콘텐츠", "생성AI활용",
        "AI활용마케팅", "AI활용홍보", "AI활용콘텐츠",
        "챗봇마케팅", "AI챗봇", "데이터마케팅",
        "퍼포먼스마케팅", "그로스마케팅"].map String.toList,
      max_score := 65, partialScore := 58.5, marginal := 52 })]

/-- AI/digital-transformation bonus keywords (source lines 276-279). -/
def AI_BONUS_KEYWORDS : List Str :=
  ["AI활용", "AI기반", "인공지능", "생성AI", "생성형AI",
   "ChatGPT", "GPT활용", "AI전환", "디지털전환", "DX"].map String.toList

def AI_BONUS_SCORE : ℚ := 5

/-- Industry bonus table (source lines 282-294), in table order. -/
def INDUSTRY_SCORES : List (Str × ℚ) :=
  [("농식품", 15), ("식품", 15), ("농산물", 15), ("화장품", 15), ("뷰티", 15),
   ("건강기능식품", 15), ("소상공인", 15), ("중소기업", 15), ("소기업", 15),
   ("사회적기업", 12), ("소셜벤처", 12), ("사회적경제", 12), ("전자", 12), ("생태목장", 12),
   ("장애인기업", 12), ("여성기업", 10), ("사회적약자", 10),
   ("관광공사", 10), ("6차산업", 10), ("공공기관", 10), ("정부", 10),
   ("목장", 10), ("수산물", 10), ("축산물", 10),
   ("지역특산물", 8), ("특산품", 8), ("지역특산", 8), ("농촌", 8), ("로컬푸드", 8),
   ("등산관광", 8), ("생태관광", 8), ("지역관광", 8),
   ("협동조합", 5), ("마을기업", 5), ("관광", 5), ("기타", 5),
   ("AI활용", 12), ("인공지능", 12), ("디지털전환", 10), ("DX", 10)
  ].map (fun e => (e.1.toList, e.2))

/-- Penalty keyword table (source lines 298-311), in table order. -/
def PENALTY_KEYWORDS : List (Str × ℚ) :=
  [("대행용역", -15), ("운영용역", -15), ("운영대행용역", -15),
   ("운영및활성화", -12), ("운영및관리", -12), ("운영활성화", -12),
   ("행사운영", -12), ("행사대행", -12),
   ("채널운영", -10), ("계정운영", -10), ("계정관리", -10),
   ("콘텐츠제작운영", -10), ("콘텐츠운영", -10),
   ("수출계약", -10), ("바이어매칭", -10), ("해외바이어", -10),
   ("특허출원", -8), ("특허", -8), ("인증취득", -8), ("KC인증", -8),
   ("직접입점", -6), ("입점계약", -6),
   ("R&D", -4), ("기술개발", -4), ("연구개발", -4),
   ("시설구축", -2), ("설비구축", -2)
  ].map (fun e => (e.1.toList, e.2))

/-- Strategic exemption words of penalty layer (a) (source line 456). -/
def STRATEGIC_EXEMPTION_WORDS : List Str :=
  ["컨설팅", "전략", "기획", "진단", "분석", "수립", "마케팅"].map String.toList

/-- Operational subset of the penalty table (source line 459). -/
def OPERATION_PENALTY_KEYWORDS : List Str :=
  ["운영용역", "운영대행용역", "운영및활성화", "운영및관리", "운영활성화"].map String.toList

/-- Strategy words of penalty layer (b) (source line 476). -/
def STRATEGY_WORDS : List Str :=
  ["전략", "컨설팅", "진단", "분석", "수립", "설계", "체계", "마케팅"].map String.toList

/-- Execution words of penalty layer (b) (source line 477). -/
def EXECUTION_WORDS : List Str :=
  ["대행", "운영", "관리", "활성화", "위탁"].map String.toList

/-- Input record for scoring: the fields `calculate_score` reads from the
item dict after its `title or bidNtceNm` / `agency or ntceInsttNm` /
`budget_raw or presmptPrce` fallbacks are resolved.  `budget_raw` is kept
in its raw textual form so that unparsable budgets are representable. -/
structure BidRecord where
  title : Str
  agency : Str
  budget_raw : Str
  deadline : Str
deriving DecidableEq

/-- Output of `calculate_score`: the result dict of source lines 373-380.
The Python dict has no `ai_bonus` key until line 493 assigns one, so that
field is an `Option` that the initial value leaves unpopulated. -/
structure ScoreResult where
  total : ℚ
  grade : Str
  is_relevant : Bool
  exclusion_reason : Option Str
  matched_domain : Option Str
  matched_keywords : List Str
  domain_score : ℚ
  industry_score : ℚ
  scale_score : ℚ
  competition_score : ℚ
  penalty : ℚ
  wkmg_agency : Bool
  gpt_result : Option Str
  gpt_adjustment : ℚ
  ai_bonus : Option ℚ
deriving DecidableEq

/-- The initial result dict (source lines 373-380). -/
def initResult : ScoreResult :=
  { total := 0, grade := ("D").toList, is_relevant := false,
    exclusion_reason := none, matched_domain := none,
    matched_keywords := [], domain_score := 0,
    industry_score := 0, scale_score := 0,
    competition_score := 0, penalty := 0, wkmg_agency := false,
    gpt_result := none, gpt_adjustment := 0, ai_bonus := none }

/-- Exclusion reason `f"마감경과:{deadline_str}"`. -/
def deadlineReason (ds : Str) : Str := ("마감경과:").toList ++ ds

/-- Exclusion reason `f"배제:{kw}"`. -/
def exclReason (kw : Str) : Str := ("배제:").toList ++ kw

/-- Exclusion reason `f"예산부적격:{budget//10000}만원"` (Python `//` is
floor division, `Int.fdiv` here). -/
def budgetReason (b : Int) : Str :=
  ("예산부적격:").toList ++ (toString (Int.fdiv b 10000)).toList ++ ("만원").toList

/-- Exclusion reason `"영역불일치"`. -/
def noDomainReason : Str := ("영역불일치").toList

/-- Deadline filter condition (source lines 384-391): a nonempty
10-character prefix that parses as a date strictly before today. -/
def deadlinePassed (ds : Str) (today : PyDate) : Bool :=
  !ds.isEmpty &&
    (match parseDate ds with
     | some dt => dt.ltb today
     | none => false)

/-- Exclusion keyword scan (source lines 393-396): the first table entry
whose space-stripped form occurs in the normalized title. -/
def findExclusionKw (title_normalized : Str) : Option Str :=
  EXCLUSIONS.find? (fun kw => pyIn (removeSpaces kw) title_normalized)

/-- Keywords of one domain matched by the title (source line 404). -/
def matchedKeywords (kws : List Str) (title title_normalized : Str) : List Str :=
  kws.filter (fun kw => pyIn kw title || pyIn (removeSpaces kw) title_normalized)

/-- Tier score of a domain for a given match count (source line 407). -/
def domainTier (dd : DomainData) (cnt : Nat) : ℚ :=
  if 3 ≤ cnt then dd.max_score else if cnt == 2 then dd.partialScore else dd.marginal

/-- One step of the best-domain fold (source lines 403-409): a domain with
at least one matched keyword replaces the running best exactly when its
tier score is strictly greater. -/
def bestDomainStep (title title_normalized : Str)
    (best : Option Str × ℚ × List Str) (entry : Str × DomainData) :
    Option Str × ℚ × List Str :=
  let m := matchedKeywords entry.2.keywords title title_normalized
  if m.isEmpty then best
  else
    let sc := domainTier entry.2 m.length
    if Rat.blt best.2.1 sc then (some entry.1, sc, m) else best

/-- The best-domain loop over the domain table (source lines 402-409). -/
def bestDomain (title title_normalized : Str) : Option Str × ℚ × List Str :=
  CORE_DOMAINS.foldl (bestDomainStep title title_normalized) (none, 0, [])

/-- Python `max` on rationals (larger argument, first on ties). -/
def pyMax (a b : ℚ) : ℚ := if Rat.blt a b then b else a

/-- Python `min` on rationals (smaller argument, first on ties). -/
def pyMin (a b : ℚ) : ℚ := if Rat.blt b a then b else a

/-- Industry bonus loop (source lines 420-424): running maximum over the
table, floor value 5. -/
def industryScoreOf (title agency : Str) : ℚ :=
  INDUSTRY_SCORES.foldl
    (fun acc e => if pyIn e.1 title || pyIn e.1 agency then pyMax acc e.2 else acc) 5

/-- Scale score from budget bands (source lines 426-434). -/
def scaleScoreOf (budget : Int) : ℚ :=
  (if 10000000 ≤ budget ∧ budget ≤ 500000000 then (5 : ℚ)
   else if 5000000 ≤ budget ∧ budget < 10000000 then 4
   else if 500000000 < budget then 3
   else 3) + 4

/-- Competition/partner bonus (source lines 436-444): +3 and the partner
flag on the first partner-list entry contained in the agency name, else
+1; plus the base 3 and the final +1. -/
def competitionOf (wkmg_agencies : List Str) (agency : Str) : ℚ × Bool :=
  match wkmg_agencies.find? (fun w => pyIn w agency) with
  | some _ => (3 + 3 + 1, true)
  | none => (3 + 1 + 1, false)

/-- Title with the agency name stripped out (source lines 447-449). -/
def titleWithoutAgency (title agency : Str) : Str :=
  if agency.isEmpty then title else pyStrip (removeOcc agency title)

/-- Strategic-context test of penalty layer (a) (source line 457). -/
def hasStrategicContext (twa : Str) : Bool :=
  STRATEGIC_EXEMPTION_WORDS.any (fun sw => pyIn sw twa)

/-- Strategy-word test of penalty layer (b) (source line 478). -/
def hasStrategyWord (twa : Str) : Bool :=
  STRATEGY_WORDS.any (fun sw => pyIn sw twa)

/-- Execution-word test of penalty layer (b) (source line 479): note that
it scans the full title, not the agency-stripped one. -/
def hasExecutionWord (title : Str) : Bool :=
  EXECUTION_WORDS.any (fun ew => pyIn ew title)

/-- One step of the penalty loop (source lines 462-469): a matched table
phrase adds its value, except that an operational phrase under strategic
context adds the -7 mitigation and sets the mitigation flag. -/
def penaltyStep (title title_normalized twa : Str) (acc : ℚ × Bool)
    (e : Str × ℚ) : ℚ × Bool :=
  if pyIn e.1 title || pyIn e.1 title_normalized then
    if hasStrategicContext twa && OPERATION_PENALTY_KEYWORDS.contains e.1 then
      (acc.1 + (-7), true)
    else (acc.1 + e.2, acc.2)
  else acc

/-- Penalty layer (a) (source lines 451-470): accumulated table penalties,
with operational phrases replaced by the -7 mitigation when the stripped
title has strategic context; the flag records that a mitigation fired. -/
def penaltyLayerA (title title_normalized twa : Str) : ℚ × Bool :=
  PENALTY_KEYWORDS.foldl (penaltyStep title title_normalized twa) (0, false)

/-- Both penalty layers (source lines 451-485). -/
def penaltyTotal (title title_normalized twa : Str) : ℚ :=
  let pa := penaltyLayerA title title_normalized twa
  if hasExecutionWord title && !hasStrategyWord twa then pa.1 - 15
  else if hasExecutionWord title && hasStrategyWord twa && !pa.2 then pa.1 - 7
  else pa.1

/-- AI bonus scan (source lines 488-493). -/
def aiBonusOf (title title_normalized : Str) : ℚ :=
  if AI_BONUS_KEYWORDS.any
      (fun kw => pyIn kw title || pyIn (removeSpaces kw) title_normalized) then
    AI_BONUS_SCORE
  else 0

/-- Grade thresholds (source line 497). -/
def mkGrade (t : ℚ) : Str :=
  if !Rat.blt t 80 then ("S").toList
  else if !Rat.blt t 65 then ("A").toList
  else if !Rat.blt t 55 then ("B").toList
  else ("C").toList

/-- The bid scorer `calculate_score` (source lines 362-499).  `today` is
the ambient `datetime.now().date()` made explicit; `wkmg_agencies` is the
configuration-derived partner list `WKMG_AGENCIES`. -/
def calculate_score (wkmg_agencies : List Str) (item : BidRecord) (today : PyDate) :
    ScoreResult :=
  let title := pyStrip item.title
  let title_normalized := normalizeTitle title
  let agency := pyStrip item.agency
  let budget := (parseBudget item.budget_raw).getD 0
  let deadline_str := item.deadline.take 10
  if deadlinePassed deadline_str today then
    { initResult with exclusion_reason := some (deadlineReason deadline_str) }
  else
    match findExclusionKw title_normalized with
    | some kw => { initResult with exclusion_reason := some (exclReason kw) }
    | none =>
      if 0 < budget ∧ budget < MIN_BUDGET then
        { initResult with exclusion_reason := some (budgetReason budget) }
      else
        match bestDomain title title_normalized with
        | (none, _, _) =>
          { initResult with exclusion_reason := some noDomainReason }
        | (some dom, best_score, best_kws) =>
          let ind := industryScoreOf title agency
          let scale := scaleScoreOf budget
          let comp := competitionOf wkmg_agencies agency
          let twa := titleWithoutAgency title agency
          let pen := penaltyTotal title title_normalized twa
          let ai := aiBonusOf title title_normalized
          let clamped := pyMax 0 (pyMin 100 (best_score + ind + scale + comp.1 + pen + ai))
          { total := clamped, grade := mkGrade clamped, is_relevant := true,
            exclusion_reason := none, matched_domain := some dom,
            matched_keywords := best_kws, domain_score := best_score,
            industry_score := ind, scale_score := scale,
            competition_score := comp.1, penalty := pen, wkmg_agency := comp.2,
            gpt_result := none, gpt_adjustment := 0, ai_bonus := some ai }

/-- UTF-8 encoding of one character, as `str.encode('utf-8')` produces it. -/
def utf8Char (c : Char) : List Nat :=
  let n := c.toNat
  if n < 128 then [n]
  else if n < 2048 then [192 + n / 64, 128 + n % 64]
  else if n < 65536 then [224 + n / 4096, 128 + (n / 64) % 64, 128 + n % 64]
  else [240 + n / 262144, 128 + (n / 4096) % 64, 128 + (n / 64) % 64, 128 + n % 64]

/-- UTF-8 encoding of a string as a byte list. -/
def utf8Encode (s : Str) : List Nat :=
  s.foldr (fun c acc => utf8Char c ++ acc) []

/-- The 64 MD5 sine-table constants (RFC 1321). -/
def md5K : List Nat :=
  [0xd76aa478, 0xe8c7b756, 0x242070db, 0xc1bdceee,
   0xf57c0faf, 0x4787c62a, 0xa8304613, 0xfd469501,
   0x698098d8, 0x8b44f7af, 0xffff5bb1, 0x895cd7be,
   0x6b901122, 0xfd987193, 0xa679438e, 0x49b40821,
   0xf61e2562, 0xc040b340, 0x265e5a51, 0xe9b6c7aa,
   0xd62f105d, 0x02441453, 0xd8a1e681, 0xe7d3fbc8,
   0x21e1cde6, 0xc33707d6, 0xf4d50d87, 0x455a14ed,
   0xa9e3e905, 0xfcefa3f8, 0x676f02d9, 0x8d2a4c8a,
   0xfffa3942, 0x8771f681, 0x6d9d6122, 0xfde5380c,
   0xa4beea44, 0x4bdecfa9, 0xf6bb4b60, 0xbebfbc70,
   0x289b7ec6, 0xeaa127fa, 0xd4ef3085, 0x04881d05,
   0xd9d4d039, 0xe6db99e5, 0x1fa27cf8, 0xc4ac5665,
   0xf4292244, 0x432aff97, 0xab9423a7, 0xfc93a039,
   0x655b59c3, 0x8f0ccc92, 0xffeff47d, 0x85845dd1,
   0x6fa87e4f, 0xfe2ce6e0, 0xa3014314, 0x4e0811a1,
   0xf7537e82, 0xbd3af235, 0x2ad7d2bb, 0xeb86d391]

/-- The 64 MD5 per-round left-rotation amounts. -/
def md5S : List Nat :=
  [7, 12, 17, 22, 7, 12, 17, 22, 7, 12, 17, 22, 7, 12, 17, 22,
   5, 9, 14, 20, 5, 9, 14, 20, 5, 9, 14, 20, 5, 9, 14, 20,
   4, 11, 16, 23, 4, 11, 16, 23, 4, 11, 16, 23, 4, 11, 16, 23,
   6, 10, 15, 21, 6, 10, 15, 21, 6, 10, 15, 21, 6, 10, 15, 21]

/-- Left rotation of a 32-bit word. -/
def rotl32 (x s : Nat) : Nat :=
  ((x <<< s) % 4294967296) ||| (x >>> (32 - s))

/-- One MD5 operation (step `i` of a block). -/
def md5Step (M : List Nat) (st : Nat × Nat × Nat × Nat) (i : Nat) :
    Nat × Nat × Nat × Nat :=
  let a := st.1
  let b := st.2.1
  let c := st.2.2.1
  let d := st.2.2.2
  let fg : Nat × Nat :=
    if i < 16 then ((b &&& c) ||| ((b ^^^ 0xffffffff) &&& d), i)
    else if i < 32 then ((d &&& b) ||| ((d ^^^ 0xffffffff) &&& c), (5 * i + 1) % 16)
    else if i < 48 then (b ^^^ c ^^^ d, (3 * i + 5) % 16)
    else (c ^^^ (b ||| (d ^^^ 0xffffffff)), (7 * i) % 16)
  let f := (fg.1 + a + md5K.getD i 0 + M.getD fg.2 0) % 4294967296
  (d, (b + rotl32 f (md5S.getD i 0)) % 4294967296, b, c)

/-- Little-endian bytes of a 32-bit word. -/
def toLE32 (n : Nat) : List Nat :=
  [n % 256, (n >>> 8) % 256, (n >>> 16) % 256, (n >>> 24) % 256]

/-- Little-endian bytes of the 64-bit message length field. -/
def toLE64 (n : Nat) : List Nat :=
  (List.range 8).map (fun i => (n >>> (8 * i)) % 256)

/-- Decode a 64-byte block into 16 little-endian 32-bit words. -/
def md5Words (block : List Nat) : List Nat :=
  (List.range 16).map
    (fun i =>
      block.getD (4 * i) 0 + (block.getD (4 * i + 1) 0) <<< 8 +
        (block.getD (4 * i + 2) 0) <<< 16 + (block.getD (4 * i + 3) 0) <<< 24)

/-- Process one 64-byte block. -/
def md5Block (st : Nat × Nat × Nat × Nat) (block : List Nat) :
    Nat × Nat × Nat × Nat :=
  let M := md5Words block
  let r := (List.range 64).foldl (md5Step M) st
  ((st.1 + r.1) % 4294967296, (st.2.1 + r.2.1) % 4294967296,
   (st.2.2.1 + r.2.2.1) % 4294967296, (st.2.2.2 + r.2.2.2) % 4294967296)

/-- MD5 padding: 0x80, zeros to 56 mod 64, then the bit length. -/
def md5Pad (msg : List Nat) : List Nat :=
  msg ++ [128] ++ List.replicate ((120 - (msg.length + 1) % 64) % 64) 0 ++
    toLE64 ((msg.length * 8) % 18446744073709551616)

/-- Split a byte list into 64-byte chunks. -/
def chunks64 (l : List Nat) : List (List Nat) :=
  if l.isEmpty then [] else l.take 64 :: chunks64 (l.drop 64)
termination_by l.length
decreasing_by
simp only [List.length_drop]
cases l with
| nil => simp_all
| cons c rest => simp; omega

/-- The 16-byte MD5 digest of a byte list (RFC 1321). -/
def md5Digest (msg : List Nat) : List Nat :=
  let st := (chunks64 (md5Pad msg)).foldl md5Block
    (0x67452301, 0xefcdab89, 0x98badcfe, 0x10325476)
  toLE32 st.1 ++ toLE32 st.2.1 ++ toLE32 st.2.2.1 ++ toLE32 st.2.2.2

def hexDigit (n : Nat) : Char :=
  if n < 10 then Char.ofNat (48 + n) else Char.ofNat (87 + n)

/-- Lower-case hexadecimal rendering of a byte list (`hexdigest()`). -/
def bytesToHex (l : List Nat) : Str :=
  l.foldr (fun b acc => hexDigit (b / 16) :: hexDigit (b % 16) :: acc) []

/-- Normalized content of `make_fingerprint` (source line 355):
`re.sub(r'\s+', '', (title + agency).lower())`. -/
def fingerprintNorm (title agency : Str) : Str :=
  ((title ++ agency).map pyLowerChar).filter (fun c => !isSpaceChar c)

/-- Content fingerprint `make_fingerprint` (source lines 354-356): the
first 16 hex characters of the MD5 of the normalized title+agency. -/
def make_fingerprint (title agency : Str) : Str :=
  (bytesToHex (md5Digest (utf8Encode (fingerprintNorm title agency)))).take 16

/-- Fingerprint of a record, as the dedup loop computes it. -/
def fpOf (r : BidRecord) : Str := make_fingerprint r.title r.agency

/-- The fingerprint dedup loop of `fetch_all_bids` (source lines 873-883):
records with empty titles are dropped, and only the first record per
fingerprint (in arrival order) is kept. -/
def dedupBids : List BidRecord → List Str → List BidRecord
  | [], _ => []
  | r :: rest, seen =>
    if r.title.isEmpty then dedupBids rest seen
    else if seen.contains (fpOf r) then dedupBids rest seen
    else r :: dedupBids rest (fpOf r :: seen)

/-- Batch dedup as `fetch_all_bids` runs it, starting from an empty
`seen` table. -/
def fetchDedup (items : List BidRecord) : List BidRecord := dedupBids items []

/-- A domain entry matches when at least one of its keywords matched the
title (source line 405 `if matched:`). -/
def domainMatches (title tn : Str) (e : Str × DomainData) : Bool :=
  !(matchedKeywords e.2.keywords title tn).isEmpty

/-- Tier score a matching domain entry receives (source line 407). -/
def domainCandScore (title tn : Str) (e : Str × DomainData) : ℚ :=
  domainTier e.2 (matchedKeywords e.2.keywords title tn).length

/-- Penalty-table entries matched by a title (source line 463). -/
def matchedPenaltyEntries (title tn : Str) : List (Str × ℚ) :=
  PENALTY_KEYWORDS.filter (fun e => pyIn e.1 title || pyIn e.1 tn)

/-- Value a matched penalty entry contributes under layer (a). -/
def penaltyContribution (twa : Str) (e : Str × ℚ) : ℚ :=
  if hasStrategicContext twa && OPERATION_PENALTY_KEYWORDS.contains e.1 then -7
  else e.2

/-- Whether a matched penalty entry fires the layer-(a) mitigation. -/
def penaltyMitigated (twa : Str) (e : Str × ℚ) : Bool :=
  hasStrategicContext twa && OPERATION_PENALTY_KEYWORDS.contains e.1

/-- Definition following the spec's words for the exclusion filter (spec
Section 4.1 step 2): normalize the title by stripping whitespace and
case-folding, then look for a whitespace-stripped entry as a substring.
Kept separate from the source-derived `findExclusionKw` so the two
normalizations can be compared. -/
def specTitleNorm (s : Str) : Str :=
  (s.filter (fun c => !isSpaceChar c)).map pyLowerChar

/-- Definition following the spec's words: some whitespace-stripped entry
of the exclusion list occurs in the whitespace-stripped, case-folded
title. -/
def specExclusionMatch (title : Str) : Bool :=
  EXCLUSIONS.any (fun kw => pyIn (removeSpaces kw) (specTitleNorm title))

/-- Definition following the claim's wording of penalty layer (b) (spec
Section 4.1 step 9b): both the execution-word and the strategy-word checks
run on the agency-stripped title. Kept separate from the source-derived
`penaltyTotal` so the two rules can be compared. -/
def specLayerB (twa : Str) (alreadyMitigated : Bool) : ℚ :=
  if EXECUTION_WORDS.any (fun ew => pyIn ew twa) && !hasStrategyWord twa then -15
  else if EXECUTION_WORDS.any (fun ew => pyIn ew twa) && hasStrategyWord twa &&
      !alreadyMitigated then -7
  else 0

/-- Record scored in the C3 witness: a one-keyword brand-domain title. -/
def wrec3 : BidRecord := ⟨("브랜딩").toList, ("기관").toList, ("0").toList, []⟩

/-- Record of the C4 counterexample: the agency name inside the title
carries the execution word 운영, the stripped title does not. -/
def cex4rec : BidRecord :=
  ⟨("운영지원센터 브랜딩").toList, ("운영지원센터").toList, ("0").toList, []⟩

/-- Second record of the C4 counterexample: the strategic word 기획 (inside
기획서) lies in the layer-(a) exemption set but not in the layer-(b)
strategy set, so the mitigated phrase still draws the layer-(b) penalty. -/
def cex4brec : BidRecord :=
  ⟨("브랜딩 기획서 운영용역").toList, ("기관").toList, ("0").toList, []⟩

/-- Record of the C4 witness: one operational penalty phrase (운영용역)
plus a strategic word (전략) in both strategic word sets. -/
def wrec4 : BidRecord :=
  ⟨("브랜딩 전략 운영용역").toList, ("기관").toList, ("0").toList, []⟩

/-- Record of the C6 witness: budget one unit below the floor. -/
def wrec6 : BidRecord :=
  ⟨("브랜딩").toList, ("기관").toList, ("29999999").toList, []⟩

/-- Record of the C7 counterexample and witness: a hyphen inside 시스템-구축
defeats whitespace-only normalization but not the source's
hyphen-stripping one. -/
def cex7rec : BidRecord :=
  ⟨("시스템-구축 브랜딩").toList, ("기관").toList, ("0").toList, []⟩

/-- Record of the C8 counterexample: its deadline lies between the two
observation dates. -/
def cex8rec : BidRecord :=
  ⟨("브랜딩").toList, ("기관").toList, ("0").toList, ("2026-03-10").toList⟩

/-- First record of the C8 witness. -/
def wrec8a : BidRecord := ⟨("브랜딩").toList, ("기관").toList, ("0").toList, []⟩

/-- Second record of the C8 witness: fields written differently but equal. -/
def wrec8b : BidRecord :=
  ⟨("브랜").toList ++ ("딩").toList, ("기").toList ++ ("관").toList,
   ("0").toList, []⟩

/-- Record of the C9 witness: unparsable budget and deadline. -/
def wrec9 : BidRecord :=
  ⟨("브랜딩").toList, ("기관").toList, ("abc").toList, ("not-a-date").toList⟩

/-- First record of the C10 concrete dedup pair. -/
def rcA : BidRecord :=
  ⟨("Brand  Strategy Consulting").toList, ("AgencyOne").toList, ("0").toList, []⟩

/-- Second record of the C10 concrete dedup pair: the title differs from
`rcA` only in interior whitespace and letter case. -/
def rcB : BidRecord :=
  ⟨("brand strategy consulting").toList, ("AgencyOne").toList, ("0").toList, []⟩

theorem rat_blt_iff (a b : ℚ) : Rat.blt a b = true ↔ a < b := Eq.to_iff rfl

theorem rat_blt_eq_false_iff (a b : ℚ) : Rat.blt a b = false ↔ b ≤ a := by
  rw [← not_lt, ← rat_blt_iff]
  simp

theorem pyMax_eq_max (a b : ℚ) : pyMax a b = max a b := by
  unfold pyMax
  cases h : Rat.blt a b with
  | true => simp [max_eq_right (le_of_lt ((rat_blt_iff a b).mp h))]
  | false => simp [max_eq_left ((rat_blt_eq_false_iff a b).mp h)]

theorem pyMin_eq_min (a b : ℚ) : pyMin a b = min a b := by
  unfold pyMin
  cases h : Rat.blt b a with
  | true => simp [min_eq_right (le_of_lt ((rat_blt_iff b a).mp h))]
  | false => simp [min_eq_left ((rat_blt_eq_false_iff b a).mp h)]

theorem mkGrade_eq (t : ℚ) :
    mkGrade t = (if 80 ≤ t then ("S").toList else if 65 ≤ t then ("A").toList
      else if 55 ≤ t then ("B").toList else ("C").toList) := by
  unfold mkGrade
  simp only [Bool.not_eq_true', rat_blt_eq_false_iff, Bool.if_false_right,
    Bool.if_true_left]

theorem parseDate_nil : parseDate [] = none := by decide

theorem ne_of_headI_ne {a b : Str} (h : a.headI ≠ b.headI) : a ≠ b :=
  fun e => h (congrArg List.headI e)

theorem deadlineReason_ne_excl (ds kw : Str) : deadlineReason ds ≠ exclReason kw := by
  apply ne_of_headI_ne
  have h1 : (deadlineReason ds).headI = '마' := rfl
  have h2 : (exclReason kw).headI = '배' := rfl
  rw [h1, h2]
  decide

theorem deadlineReason_ne_budget (ds : Str) (b : Int) :
    deadlineReason ds ≠ budgetReason b := by
  apply ne_of_headI_ne
  have h1 : (deadlineReason ds).headI = '마' := rfl
  have h2 : (budgetReason b).headI = '예' := rfl
  rw [h1, h2]
  decide

theorem deadlineReason_ne_noDomain (ds : Str) : deadlineReason ds ≠ noDomainReason := by
  apply ne_of_headI_ne
  have h1 : (deadlineReason ds).headI = '마' := rfl
  rw [h1]
  decide

theorem budgetReason_ne_noDomain (b : Int) : budgetReason b ≠ noDomainReason := by
  apply ne_of_headI_ne
  have h2 : (budgetReason b).headI = '예' := rfl
  rw [h2]
  decide

theorem exclReason_ne_budget (kw : Str) (b : Int) : exclReason kw ≠ budgetReason b := by
  apply ne_of_headI_ne
  have h1 : (exclReason kw).headI = '배' := rfl
  have h2 : (budgetReason b).headI = '예' := rfl
  rw [h1, h2]
  decide

theorem exclReason_ne_noDomain (kw : Str) : exclReason kw ≠ noDomainReason := by
  apply ne_of_headI_ne
  have h1 : (exclReason kw).headI = '배' := rfl
  rw [h1]
  decide

set_option maxRecDepth 400000 in
/-- RFC 1321 test vector, validating the MD5 transcription. -/
theorem md5_abc :
    bytesToHex (md5Digest (utf8Encode (("abc").toList))) =
      ("900150983cd24fb0d6963f7d28e17f72").toList := by
  with_unfolding_all decide

set_option maxRecDepth 400000 in
/-- RFC 1321 test vector for the empty message. -/
theorem md5_empty :
    bytesToHex (md5Digest []) = ("d41d8cd98f00b204e9800998ecf8427e").toList := by
  with_unfolding_all decide

theorem bestDomainStep_update (title tn : Str) (acc : Option Str × ℚ × List Str)
    (c : Str × DomainData) (hm : domainMatches title tn c = true)
    (hlt : acc.2.1 < domainCandScore title tn c) :
    bestDomainStep title tn acc c =
      (some c.1, domainCandScore title tn c, matchedKeywords c.2.keywords title tn) := by
  unfold domainMatches at hm
  unfold domainCandScore at hlt
  rw [Bool.not_eq_true'] at hm
  unfold bestDomainStep
  simp only [hm, Bool.false_eq_true, if_false, (rat_blt_iff _ _).mpr hlt, if_true]
  rfl

theorem bestDomainStep_keep_le (title tn : Str) (acc : Option Str × ℚ × List Str)
    (c : Str × DomainData) (hlt : ¬acc.2.1 < domainCandScore title tn c) :
    bestDomainStep title tn acc c = acc := by
  unfold domainCandScore at hlt
  simp only [bestDomainStep]
  split
  · rfl
  · rw [if_neg]
    intro hb
    exact hlt ((rat_blt_iff _ _).mp hb)

theorem bestDomainStep_keep_nomatch (title tn : Str) (acc : Option Str × ℚ × List Str)
    (c : Str × DomainData) (hm : domainMatches title tn c = false) :
    bestDomainStep title tn acc c = acc := by
  unfold domainMatches at hm
  rw [Bool.not_eq_false'] at hm
  simp only [bestDomainStep, hm, if_true]

theorem bestDomain_foldl_spec (title tn : Str) (l : List (Str × DomainData)) :
    ∀ acc : Option Str × ℚ × List Str,
      (List.foldl (bestDomainStep title tn) acc l = acc ∧
        ∀ e ∈ l, domainMatches title tn e = true →
          domainCandScore title tn e ≤ acc.2.1) ∨
      (∃ pre e post, l = pre ++ e :: post ∧ domainMatches title tn e = true ∧
        List.foldl (bestDomainStep title tn) acc l =
          (some e.1, domainCandScore title tn e,
            matchedKeywords e.2.keywords title tn) ∧
        acc.2.1 < domainCandScore title tn e ∧
        (∀ e2 ∈ pre, domainMatches title tn e2 = true →
          domainCandScore title tn e2 < domainCandScore title tn e) ∧
        (∀ e2 ∈ post, domainMatches title tn e2 = true →
          domainCandScore title tn e2 ≤ domainCandScore title tn e)) := by
  induction l with
  | nil =>
    intro acc
    left
    exact ⟨rfl, by simp⟩
  | cons c rest ih =>
    intro acc
    rw [List.foldl_cons]
    by_cases hm : domainMatches title tn c = true
    · by_cases hlt : acc.2.1 < domainCandScore title tn c
      · rw [bestDomainStep_update title tn acc c hm hlt]
        rcases ih (some c.1, domainCandScore title tn c,
            matchedKeywords c.2.keywords title tn) with
          ⟨heq, hb⟩ | ⟨pre, e, post, hl, hme, heq, hacc, hpre, hpost⟩
        · refine Or.inr ⟨[], c, rest, rfl, hm, ?_, hlt, by simp, ?_⟩
          · rw [heq]
          · intro e2 h2 hm2
            exact hb e2 h2 hm2
        · refine Or.inr ⟨c :: pre, e, post, by rw [hl]; rfl, hme, heq, ?_, ?_, hpost⟩
          · exact lt_trans hlt hacc
          · intro e2 h2 hm2
            rcases List.mem_cons.mp h2 with rfl | h2
            · exact hacc
            · exact hpre e2 h2 hm2
      · rw [bestDomainStep_keep_le title tn acc c hlt]
        rcases ih acc with
          ⟨heq, hb⟩ | ⟨pre, e, post, hl, hme, heq, hacc, hpre, hpost⟩
        · refine Or.inl ⟨heq, ?_⟩
          intro e2 h2 hm2
          rcases List.mem_cons.mp h2 with rfl | h2
          · exact le_of_not_lt hlt
          · exact hb e2 h2 hm2
        · refine Or.inr ⟨c :: pre, e, post, by rw [hl]; rfl, hme, heq, hacc, ?_, hpost⟩
          intro e2 h2 hm2
          rcases List.mem_cons.mp h2 with rfl | h2
          · exact lt_of_le_of_lt (le_of_not_lt hlt) hacc
          · exact hpre e2 h2 hm2
    · have hm2 : domainMatches title tn c = false := by
        cases hx : domainMatches title tn c
        · rfl
        · exact absurd hx hm
      rw [bestDomainStep_keep_nomatch title tn acc c hm2]
      rcases ih acc with
        ⟨heq, hb⟩ | ⟨pre, e, post, hl, hme, heq, hacc, hpre, hpost⟩
      · refine Or.inl ⟨heq, ?_⟩
        intro e2 h2 hm3
        rcases List.mem_cons.mp h2 with rfl | h2
        · exact absurd hm3 hm
        · exact hb e2 h2 hm3
      · refine Or.inr ⟨c :: pre, e, post, by rw [hl]; rfl, hme, heq, hacc, ?_, hpost⟩
        intro e2 h2 hm3
        rcases List.mem_cons.mp h2 with rfl | h2
        · exact absurd hm3 hm
        · exact hpre e2 h2 hm3

theorem domainCandScore_pos (title tn : Str) (e : Str × DomainData)
    (he : e ∈ CORE_DOMAINS) : 0 < domainCandScore title tn e := by
  unfold domainCandScore domainTier
  simp only [CORE_DOMAINS, List.mem_cons, List.not_mem_nil, or_false] at he
  rcases he with rfl | rfl | rfl | rfl <;> split_ifs <;> norm_num

theorem penaltyStep_foldl (title tn twa : Str) (l : List (Str × ℚ)) :
    ∀ acc : ℚ × Bool,
      List.foldl (penaltyStep title tn twa) acc l =
        (acc.1 +
          ((l.filter (fun e => pyIn e.1 title || pyIn e.1 tn)).map
            (penaltyContribution twa)).sum,
         acc.2 ||
          (l.filter (fun e => pyIn e.1 title || pyIn e.1 tn)).any
            (penaltyMitigated twa)) := by
  induction l with
  | nil => intro acc; simp
  | cons c rest ih =>
    intro acc
    rw [List.foldl_cons]
    by_cases hc : (pyIn c.1 title || pyIn c.1 tn) = true
    · by_cases hmit : penaltyMitigated twa c = true
      · have hstep : penaltyStep title tn twa acc c = (acc.1 + (-7), true) := by
          unfold penaltyMitigated at hmit
          simp only [penaltyStep, hc, if_true, hmit]
        rw [hstep, ih]
        have hcontrib : penaltyContribution twa c = -7 := by
          unfold penaltyMitigated at hmit
          simp only [penaltyContribution, hmit, if_true]
        simp [List.filter_cons, hc, hcontrib, hmit, add_assoc]
      · have hmit2 : penaltyMitigated twa c = false := by
          cases hx : penaltyMitigated twa c
          · rfl
          · exact absurd hx hmit
        have hstep : penaltyStep title tn twa acc c = (acc.1 + c.2, acc.2) := by
          unfold penaltyMitigated at hmit2
          simp only [penaltyStep, hc, if_true, hmit2, Bool.false_eq_true, if_false]
        rw [hstep, ih]
        have hcontrib : penaltyContribution twa c = c.2 := by
          unfold penaltyMitigated at hmit2
          simp only [penaltyContribution, hmit2, Bool.false_eq_true, if_false]
        simp [List.filter_cons, hc, hcontrib, hmit2, add_assoc]
    · have hc2 : (pyIn c.1 title || pyIn c.1 tn) = false := by
        cases hx : (pyIn c.1 title || pyIn c.1 tn)
        · rfl
        · exact absurd hx hc
      have hstep : penaltyStep title tn twa acc c = acc := by
        simp only [penaltyStep, hc2, Bool.false_eq_true, if_false]
      rw [hstep, ih]
      simp [List.filter_cons, hc2]

theorem penaltyLayerA_eq (title tn twa : Str) :
    penaltyLayerA title tn twa =
      (((matchedPenaltyEntries title tn).map (penaltyContribution twa)).sum,
       (matchedPenaltyEntries title tn).any (penaltyMitigated twa)) := by
  unfold penaltyLayerA matchedPenaltyEntries
  rw [penaltyStep_foldl]
  simp

theorem calculate_score_relevant_penalty (w : List Str) (r : BidRecord) (d : PyDate)
    (h : (calculate_score w r d).is_relevant = true) :
    (calculate_score w r d).penalty =
      penaltyTotal (pyStrip r.title) (normalizeTitle (pyStrip r.title))
        (titleWithoutAgency (pyStrip r.title) (pyStrip r.agency)) := by
  revert h
  simp only [calculate_score]
  split
  · intro h; simp [initResult] at h
  · split
    · intro h; simp [initResult] at h
    · split
      · intro h; simp [initResult] at h
      · split
        · intro h; simp [initResult] at h
        · intro _; rfl

theorem contains_true_mem {l : List Str} {a : Str} (h : l.contains a = true) :
    a ∈ l := List.elem_iff.mp h

theorem contains_false_not_mem {l : List Str} {a : Str} (h : l.contains a = false) :
    a ∉ l := fun hm => by
  have h2 : l.contains a = true := List.elem_iff.mpr hm
  rw [h2] at h
  exact Bool.noConfusion h

theorem dedupBids_cons_empty (c : BidRecord) (rest : List BidRecord) (seen : List Str)
    (h : c.title.isEmpty = true) : dedupBids (c :: rest) seen = dedupBids rest seen := by
  simp only [dedupBids, h, if_true]

theorem dedupBids_cons_seen (c : BidRecord) (rest : List BidRecord) (seen : List Str)
    (h : c.title.isEmpty = false) (hs : seen.contains (fpOf c) = true) :
    dedupBids (c :: rest) seen = dedupBids rest seen := by
  simp only [dedupBids, h, hs, Bool.false_eq_true, if_false, if_true]

theorem dedupBids_cons_keep (c : BidRecord) (rest : List BidRecord) (seen : List Str)
    (h : c.title.isEmpty = false) (hs : seen.contains (fpOf c) = false) :
    dedupBids (c :: rest) seen = c :: dedupBids rest (fpOf c :: seen) := by
  simp only [dedupBids, h, hs, Bool.false_eq_true, if_false]

theorem dedupBids_mem_fp (l : List BidRecord) :
    ∀ (seen : List Str) (fp : Str),
      fp ∈ (dedupBids l seen).map fpOf ↔
        fp ∉ seen ∧ fp ∈ (l.filter (fun r => !r.title.isEmpty)).map fpOf := by
  induction l with
  | nil => intro seen fp; simp [dedupBids]
  | cons c rest ih =>
    intro seen fp
    by_cases hemp : c.title.isEmpty = true
    · have hf : (c :: rest).filter (fun r => !r.title.isEmpty) =
          rest.filter (fun r => !r.title.isEmpty) := by
        simp [List.filter_cons, hemp]
      rw [dedupBids_cons_empty _ _ _ hemp, hf, ih]
    · have hemp2 : c.title.isEmpty = false := by
        cases hx : c.title.isEmpty
        · rfl
        · exact absurd hx hemp
      have hf : (c :: rest).filter (fun r => !r.title.isEmpty) =
          c :: rest.filter (fun r => !r.title.isEmpty) := by
        simp [List.filter_cons, hemp2]
      by_cases hseen : seen.contains (fpOf c) = true
      · have hcmem : fpOf c ∈ seen := contains_true_mem hseen
        rw [dedupBids_cons_seen _ _ _ hemp2 hseen, hf, ih, List.map_cons]
        constructor
        · rintro ⟨hns, hmem⟩
          exact ⟨hns, List.mem_cons_of_mem _ hmem⟩
        · rintro ⟨hns, hmem⟩
          rcases List.mem_cons.mp hmem with rfl | hmem
          · exact absurd hcmem hns
          · exact ⟨hns, hmem⟩
      · have hseen2 : seen.contains (fpOf c) = false := by
          cases hx : seen.contains (fpOf c)
          · rfl
          · exact absurd hx hseen
        have hcnm : fpOf c ∉ seen := contains_false_not_mem hseen2
        rw [dedupBids_cons_keep _ _ _ hemp2 hseen2, hf, List.map_cons, List.map_cons]
        constructor
        · intro hmem
          rcases List.mem_cons.mp hmem with rfl | hmem
          · exact ⟨hcnm, List.mem_cons_self _ _⟩
          · rcases (ih _ fp).mp hmem with ⟨hns, hmem2⟩
            exact ⟨fun hh => hns (List.mem_cons_of_mem _ hh),
              List.mem_cons_of_mem _ hmem2⟩
        · rintro ⟨hns, hmem⟩
          rcases List.mem_cons.mp hmem with heq | hmem
          · rw [heq]
            exact List.mem_cons_self _ _
          · by_cases hfc : fp = fpOf c
            · rw [hfc]
              exact List.mem_cons_self _ _
            · refine List.mem_cons_of_mem _ ((ih _ fp).mpr ⟨?_, hmem⟩)
              intro hh
              rcases List.mem_cons.mp hh with h3 | h3
              · exact hfc h3
              · exact hns h3

theorem dedupBids_nodup (l : List BidRecord) :
    ∀ seen : List Str, ((dedupBids l seen).map fpOf).Nodup ∧
      ∀ fp ∈ (dedupBids l seen).map fpOf, fp ∉ seen := by
  induction l with
  | nil => intro seen; simp [dedupBids]
  | cons c rest ih =>
    intro seen
    by_cases hemp : c.title.isEmpty = true
    · rw [dedupBids_cons_empty _ _ _ hemp]
      exact ih seen
    · have hemp2 : c.title.isEmpty = false := by
        cases hx : c.title.isEmpty
        · rfl
        · exact absurd hx hemp
      by_cases hseen : seen.contains (fpOf c) = true
      · rw [dedupBids_cons_seen _ _ _ hemp2 hseen]
        exact ih seen
      · have hseen2 : seen.contains (fpOf c) = false := by
          cases hx : seen.contains (fpOf c)
          · rfl
          · exact absurd hx hseen
        rw [dedupBids_cons_keep _ _ _ hemp2 hseen2, List.map_cons]
        obtain ⟨hnd, hni⟩ := ih (fpOf c :: seen)
        constructor
        · rw [List.nodup_cons]
          exact ⟨fun hmem => (hni _ hmem) (List.mem_cons_self _ _), hnd⟩
        · intro fp hmem
          rcases List.mem_cons.mp hmem with rfl | hmem
          · exact contains_false_not_mem hseen2
          · exact fun hh => (hni fp hmem) (List.mem_cons_of_mem _ hh)

theorem dedupBids_first (l : List BidRecord) :
    ∀ (seen : List Str) (r : BidRecord), r ∈ dedupBids l seen →
      ∃ pre post, l = pre ++ r :: post ∧ fpOf r ∉ seen ∧
        ∀ r2 ∈ pre, (!r2.title.isEmpty) = true → fpOf r2 ≠ fpOf r := by
  induction l with
  | nil => intro seen r h; simp [dedupBids] at h
  | cons c rest ih =>
    intro seen r hmem
    by_cases hemp : c.title.isEmpty = true
    · rw [dedupBids_cons_empty _ _ _ hemp] at hmem
      obtain ⟨pre, post, hl, hns, hpre⟩ := ih seen r hmem
      refine ⟨c :: pre, post, by rw [hl]; rfl, hns, ?_⟩
      intro r2 h2 hr2
      rcases List.mem_cons.mp h2 with rfl | h2
      · rw [Bool.not_eq_true', hemp] at hr2
        exact absurd hr2 (by decide)
      · exact hpre r2 h2 hr2
    · have hemp2 : c.title.isEmpty = false := by
        cases hx : c.title.isEmpty
        · rfl
        · exact absurd hx hemp
      by_cases hseen : seen.contains (fpOf c) = true
      · rw [dedupBids_cons_seen _ _ _ hemp2 hseen] at hmem
        obtain ⟨pre, post, hl, hns, hpre⟩ := ih seen r hmem
        refine ⟨c :: pre, post, by rw [hl]; rfl, hns, ?_⟩
        intro r2 h2 hr2
        rcases List.mem_cons.mp h2 with rfl | h2
        · intro hfp
          rw [hfp] at hseen
          exact hns (contains_true_mem hseen)
        · exact hpre r2 h2 hr2
      · have hseen2 : seen.contains (fpOf c) = false := by
          cases hx : seen.contains (fpOf c)
          · rfl
          · exact absurd hx hseen
        rw [dedupBids_cons_keep _ _ _ hemp2 hseen2] at hmem
        rcases List.mem_cons.mp hmem with rfl | hmem
        · exact ⟨[], rest, rfl, contains_false_not_mem hseen2, by simp⟩
        · obtain ⟨pre, post, hl, hns, hpre⟩ := ih (fpOf c :: seen) r hmem
          refine ⟨c :: pre, post, by rw [hl]; rfl, ?_, ?_⟩
          · exact fun hh => hns (List.mem_cons_of_mem _ hh)
          · intro r2 h2 hr2
            rcases List.mem_cons.mp h2 with rfl | h2
            · exact fun hfp => hns (hfp ▸ List.mem_cons_self _ _)
            · exact hpre r2 h2 hr2

/-- C1: for every BidRecord, the ScoreResult of `calculate_score` satisfies
exactly one of: the exclusion reason is set (and then the record is not
relevant, its domain score is zero and the ai_bonus field was never
populated), or the record is relevant with the exclusion reason unset and
the ai_bonus component populated — never both. -/
theorem C1_exclusion_scoring_exclusive (w : List Str) (r : BidRecord) (d : PyDate) :
    (((calculate_score w r d).exclusion_reason ≠ none ∧
        (calculate_score w r d).is_relevant = false ∧
        (calculate_score w r d).domain_score = 0 ∧
        (calculate_score w r d).ai_bonus = none) ∧
      ¬((calculate_score w r d).is_relevant = true)) ∨
    (((calculate_score w r d).exclusion_reason = none ∧
        (calculate_score w r d).is_relevant = true ∧
        (calculate_score w r d).ai_bonus ≠ none) ∧
      ¬((calculate_score w r d).exclusion_reason ≠ none)) := by
  simp only [calculate_score]
  split
  · left; simp [initResult]
  · split
    · left; simp [initResult]
    · split
      · left; simp [initResult]
      · split
        · left; simp [initResult]
        · right; simp

/-- C2: for every record the total lies in [0, 100]; for a scored record
the total is the clamp of the sum of the six components to [0, 100] and
the grade is the fixed step function of that clamped total (S at 80 and
above, A at 65, B at 55, else C); an excluded record keeps total 0 and
grade D. -/
theorem C2_total_clamped_grade_step (w : List Str) (r : BidRecord) (d : PyDate) :
    (0 ≤ (calculate_score w r d).total ∧ (calculate_score w r d).total ≤ 100) ∧
    ((calculate_score w r d).is_relevant = true →
      (calculate_score w r d).total =
        max 0 (min 100 ((calculate_score w r d).domain_score +
          (calculate_score w r d).industry_score +
          (calculate_score w r d).scale_score +
          (calculate_score w r d).competition_score +
          (calculate_score w r d).penalty +
          ((calculate_score w r d).ai_bonus.getD 0))) ∧
      (calculate_score w r d).grade =
        (if 80 ≤ (calculate_score w r d).total then ("S").toList
         else if 65 ≤ (calculate_score w r d).total then ("A").toList
         else if 55 ≤ (calculate_score w r d).total then ("B").toList
         else ("C").toList)) ∧
    ((calculate_score w r d).is_relevant = false →
      (calculate_score w r d).grade = ("D").toList ∧
      (calculate_score w r d).total = 0) := by
  simp only [calculate_score]
  split
  · simp [initResult]
  · split
    · simp [initResult]
    · split
      · simp [initResult]
      · split
        · simp [initResult]
        · simp only [initResult]
          refine ⟨?_, ?_, ?_⟩
          · constructor
            · rw [pyMax_eq_max]; exact le_max_left 0 _
            · rw [pyMax_eq_max, pyMin_eq_min]
              exact max_le (by norm_num) (min_le_left 100 _)
          · intro _
            constructor
            · simp [pyMax_eq_max, pyMin_eq_min]
            · simp [mkGrade_eq]
          · intro h
            simp at h

/-- C5: the scorer returns immediately with the deadline-passed reason
exactly when the 10-character prefix of the deadline parses as a calendar
date strictly before today; a deadline at or after today, and an empty or
unparsable deadline, never produce that exclusion. -/
theorem C5_deadline_filter (w : List Str) (r : BidRecord) (d : PyDate) :
    ((∃ dt, parseDate (r.deadline.take 10) = some dt ∧ dt.ltb d = true) →
      calculate_score w r d =
        { initResult with
            exclusion_reason := some (deadlineReason (r.deadline.take 10)) }) ∧
    ((calculate_score w r d).exclusion_reason =
        some (deadlineReason (r.deadline.take 10)) →
      ∃ dt, parseDate (r.deadline.take 10) = some dt ∧ dt.ltb d = true) := by
  constructor
  · rintro ⟨dt, hp, hlt⟩
    have hdp : deadlinePassed (r.deadline.take 10) d = true := by
      unfold deadlinePassed
      have hne : (r.deadline.take 10).isEmpty = false := by
        cases he : (r.deadline.take 10).isEmpty
        · rfl
        · exfalso
          rw [List.isEmpty_iff] at he
          rw [he, parseDate_nil] at hp
          exact Option.noConfusion hp
      rw [hne, hp]
      simpa using hlt
    simp only [calculate_score, hdp]
    simp
  · intro hres
    by_cases hdp : deadlinePassed (r.deadline.take 10) d = true
    · unfold deadlinePassed at hdp
      rcases hp : parseDate (r.deadline.take 10) with _ | dt
      · rw [hp] at hdp; simp at hdp
      · rw [hp] at hdp
        simp only [Bool.and_eq_true] at hdp
        exact ⟨dt, rfl, hdp.2⟩
    · exfalso
      simp only [calculate_score, Bool.not_eq_true] at hres hdp
      rw [hdp] at hres
      simp only [Bool.false_eq_true, if_false] at hres
      revert hres
      split
      · simp
        first
        | exact deadlineReason_ne_excl _ _
        | exact fun hh => (deadlineReason_ne_excl _ _) hh.symm
      · split
        · simp
          first
          | exact deadlineReason_ne_budget _ _
          | exact fun hh => (deadlineReason_ne_budget _ _) hh.symm
        · split
          · simp
            first
            | exact deadlineReason_ne_noDomain _
            | exact fun hh => (deadlineReason_ne_noDomain _) hh.symm
          · simp

/-- C6: once the deadline and exclusion-keyword filters have passed, the
scorer excludes a record with the budget reason exactly when the parsed
budget lies strictly between 0 and MIN_BUDGET; budget 0 (the unspecified
sentinel) and budgets at or above the floor are not excluded on budget. -/
theorem C6_budget_floor (w : List Str) (r : BidRecord) (d : PyDate)
    (h1 : deadlinePassed (r.deadline.take 10) d = false)
    (h2 : findExclusionKw (normalizeTitle (pyStrip r.title)) = none) :
    (0 < (parseBudget r.budget_raw).getD 0 ∧
        (parseBudget r.budget_raw).getD 0 < MIN_BUDGET) ↔
      (calculate_score w r d).exclusion_reason =
        some (budgetReason ((parseBudget r.budget_raw).getD 0)) := by
  simp only [calculate_score, h1, h2]
  simp only [Bool.false_eq_true, if_false]
  by_cases hb : 0 < (parseBudget r.budget_raw).getD 0 ∧
      (parseBudget r.budget_raw).getD 0 < MIN_BUDGET
  · rw [if_pos hb]
    simp [hb]
  · rw [if_neg hb]
    simp only [hb, false_iff]
    split
    · simp
      first
      | exact budgetReason_ne_noDomain _
      | exact fun hh => (budgetReason_ne_noDomain _) hh.symm
    · simp

set_option maxRecDepth 40000 in
/-- C6 witness: a record with budget 29999999 (one below the floor) that
passes the earlier filters is excluded with the budget reason. -/
theorem C6_witness :
    (calculate_score [] wrec6 ⟨2026, 10, 12⟩).exclusion_reason =
      some (budgetReason ((parseBudget wrec6.budget_raw).getD 0)) :=
  (C6_budget_floor [] wrec6 ⟨2026, 10, 12⟩ (by decide) (by decide)).mp (by decide)

/-- C3: for a record past the three early exclusion filters, each domain
with at least one matched keyword scores the full tier at 3 or more
matches, the partial tier at exactly 2 and the marginal tier at exactly 1;
if no domain matches, the record is excluded with the no-domain-match
reason and stays irrelevant; otherwise the record is relevant and the
winning domain attains the maximal tier score, every earlier domain in
table order scoring strictly less (first domain reaching the maximum
wins). -/
theorem C3_domain_matching_first_max (w : List Str) (r : BidRecord) (d : PyDate)
    (h1 : deadlinePassed (r.deadline.take 10) d = false)
    (h2 : findExclusionKw (normalizeTitle (pyStrip r.title)) = none)
    (h3 : ¬(0 < (parseBudget r.budget_raw).getD 0 ∧
      (parseBudget r.budget_raw).getD 0 < MIN_BUDGET)) :
    ((∀ e ∈ CORE_DOMAINS,
        domainMatches (pyStrip r.title) (normalizeTitle (pyStrip r.title)) e = false) →
      (calculate_score w r d).exclusion_reason = some noDomainReason ∧
        (calculate_score w r d).is_relevant = false) ∧
    (∀ e ∈ CORE_DOMAINS,
      domainMatches (pyStrip r.title) (normalizeTitle (pyStrip r.title)) e = true →
      domainCandScore (pyStrip r.title) (normalizeTitle (pyStrip r.title)) e =
        (if 3 ≤ (matchedKeywords e.2.keywords (pyStrip r.title)
              (normalizeTitle (pyStrip r.title))).length then e.2.max_score
         else if (matchedKeywords e.2.keywords (pyStrip r.title)
              (normalizeTitle (pyStrip r.title))).length = 2 then e.2.partialScore
         else e.2.marginal)) ∧
    ((∃ e ∈ CORE_DOMAINS,
        domainMatches (pyStrip r.title) (normalizeTitle (pyStrip r.title)) e = true) →
      (calculate_score w r d).is_relevant = true ∧
      ∃ pre e post, CORE_DOMAINS = pre ++ e :: post ∧
        domainMatches (pyStrip r.title) (normalizeTitle (pyStrip r.title)) e = true ∧
        (calculate_score w r d).matched_domain = some e.1 ∧
        (calculate_score w r d).domain_score =
          domainCandScore (pyStrip r.title) (normalizeTitle (pyStrip r.title)) e ∧
        (calculate_score w r d).matched_keywords =
          matchedKeywords e.2.keywords (pyStrip r.title)
            (normalizeTitle (pyStrip r.title)) ∧
        (∀ e2 ∈ CORE_DOMAINS,
          domainMatches (pyStrip r.title) (normalizeTitle (pyStrip r.title)) e2 = true →
          domainCandScore (pyStrip r.title) (normalizeTitle (pyStrip r.title)) e2 ≤
            domainCandScore (pyStrip r.title) (normalizeTitle (pyStrip r.title)) e) ∧
        (∀ e2 ∈ pre,
          domainMatches (pyStrip r.title) (normalizeTitle (pyStrip r.title)) e2 = true →
          domainCandScore (pyStrip r.title) (normalizeTitle (pyStrip r.title)) e2 <
            domainCandScore (pyStrip r.title) (normalizeTitle (pyStrip r.title)) e)) := by
  refine ⟨?_, ?_, ?_⟩
  · intro hall
    rcases bestDomain_foldl_spec (pyStrip r.title) (normalizeTitle (pyStrip r.title))
        CORE_DOMAINS (none, 0, []) with
      ⟨heq, _⟩ | ⟨pre, e, post, hl, hme, _, _, _, _⟩
    · have hbd : bestDomain (pyStrip r.title) (normalizeTitle (pyStrip r.title)) =
          (none, 0, []) := heq
      simp only [calculate_score, h1, Bool.false_eq_true, if_false, h2]
      rw [if_neg h3, hbd]
      exact ⟨rfl, rfl⟩
    · exfalso
      have hmem : e ∈ CORE_DOMAINS := by
        rw [hl]
        exact List.mem_append_right pre (List.mem_cons_self e post)
      rw [hall e hmem] at hme
      exact Bool.false_ne_true hme
  · intro e _ _
    unfold domainCandScore domainTier
    simp only [beq_iff_eq]
  · rintro ⟨e0, he0, hme0⟩
    rcases bestDomain_foldl_spec (pyStrip r.title) (normalizeTitle (pyStrip r.title))
        CORE_DOMAINS (none, 0, []) with
      ⟨_, hb⟩ | ⟨pre, e, post, hl, hme, heq, _, hpre, hpost⟩
    · exfalso
      have hle := hb e0 he0 hme0
      have hpos := domainCandScore_pos (pyStrip r.title)
        (normalizeTitle (pyStrip r.title)) e0 he0
      exact absurd (lt_of_lt_of_le hpos hle) (by norm_num)
    · have hbd : bestDomain (pyStrip r.title) (normalizeTitle (pyStrip r.title)) =
          (some e.1, domainCandScore (pyStrip r.title)
            (normalizeTitle (pyStrip r.title)) e,
           matchedKeywords e.2.keywords (pyStrip r.title)
            (normalizeTitle (pyStrip r.title))) := heq
      simp only [calculate_score, h1, Bool.false_eq_true, if_false, h2]
      rw [if_neg h3, hbd]
      refine ⟨rfl, pre, e, post, hl, hme, rfl, rfl, rfl, ?_, hpre⟩
      intro e2 h2 hm2
      rw [hl] at h2
      rcases List.mem_append.mp h2 with h2 | h2
      · exact le_of_lt (hpre e2 h2 hm2)
      · rcases List.mem_cons.mp h2 with rfl | h2
        · exact le_refl _
        · exact hpost e2 h2 hm2

set_option maxRecDepth 40000 in
/-- C3 witness: a record whose title matches one brand-domain keyword,
with the earlier filters passing, is scored as relevant. -/
theorem C3_witness : (calculate_score [] wrec3 ⟨2026, 10, 12⟩).is_relevant = true :=
  ((C3_domain_matching_first_max [] wrec3 ⟨2026, 10, 12⟩ (by decide) (by decide)
      (by decide)).2.2
    ⟨CORE_DOMAINS.get ⟨0, by decide⟩, List.get_mem CORE_DOMAINS 0 (by decide),
      by decide⟩).1

/-- C4: the claim is refuted at two concrete records. First, its layer (b)
— execution words checked against the agency-stripped title — fails on
`cex4rec`: the agency name inside the title carries the execution word
운영, the stripped title 브랜딩 has neither an execution word nor any matched
penalty phrase, so the claim predicts penalty 0 while the scorer assigns
-15. Second, its coda — one operational phrase plus one strategic word
incurs exactly the mitigated value once — fails on `cex4brec`: the only
matched penalty phrase is the operational 운영용역 and the stripped title has
strategic context (기획), yet the penalty is -22 (the -7 mitigation plus
the -15 of layer (b), whose strategy set lacks 기획), not -7 once. -/
theorem C4_counterexample :
    ((calculate_score [] cex4rec ⟨2026, 10, 12⟩).penalty = -15 ∧
     penaltyLayerA (pyStrip cex4rec.title) (normalizeTitle (pyStrip cex4rec.title))
       (titleWithoutAgency (pyStrip cex4rec.title) (pyStrip cex4rec.agency)) =
       (0, false) ∧
     specLayerB (titleWithoutAgency (pyStrip cex4rec.title) (pyStrip cex4rec.agency))
       false = 0) ∧
    ((calculate_score [] cex4brec ⟨2026, 10, 12⟩).penalty = -22 ∧
     matchedPenaltyEntries (pyStrip cex4brec.title)
       (normalizeTitle (pyStrip cex4brec.title)) = [(("운영용역").toList, -15)] ∧
     hasStrategicContext
       (titleWithoutAgency (pyStrip cex4brec.title) (pyStrip cex4brec.agency)) =
       true) := by
  refine ⟨⟨?_, ?_, ?_⟩, ?_, ?_, ?_⟩
  · with_unfolding_all decide
  · with_unfolding_all decide
  · with_unfolding_all decide
  · with_unfolding_all decide
  · with_unfolding_all decide
  · with_unfolding_all decide

/-- C4: for every scored record, (a) if the only matched penalty-table
phrase is one operational phrase and the agency-stripped title has both
strategic context and a layer-(b) strategy word, the penalty is exactly
the -7 mitigation once — never the full table value on top of it; (b) the
layer-(b) rule checks execution words against the FULL title: an
execution word in the title with no strategy word in the stripped title
adds the fixed -15 on top of layer (a), and an execution word with a
strategy word in the stripped title and no layer-(a) mitigation adds the
smaller fixed -7 instead. -/
theorem C4_penalty_two_layer (w : List Str) (r : BidRecord) (d : PyDate)
    (hrel : (calculate_score w r d).is_relevant = true) :
    (∀ op p,
      matchedPenaltyEntries (pyStrip r.title) (normalizeTitle (pyStrip r.title)) =
        [(op, p)] →
      OPERATION_PENALTY_KEYWORDS.contains op = true →
      hasStrategicContext
        (titleWithoutAgency (pyStrip r.title) (pyStrip r.agency)) = true →
      hasStrategyWord (titleWithoutAgency (pyStrip r.title) (pyStrip r.agency)) = true →
      (calculate_score w r d).penalty = -7) ∧
    (hasExecutionWord (pyStrip r.title) = true →
      hasStrategyWord (titleWithoutAgency (pyStrip r.title) (pyStrip r.agency)) = false →
      (calculate_score w r d).penalty =
        (penaltyLayerA (pyStrip r.title) (normalizeTitle (pyStrip r.title))
          (titleWithoutAgency (pyStrip r.title) (pyStrip r.agency))).1 - 15) ∧
    (hasExecutionWord (pyStrip r.title) = true →
      hasStrategyWord (titleWithoutAgency (pyStrip r.title) (pyStrip r.agency)) = true →
      (penaltyLayerA (pyStrip r.title) (normalizeTitle (pyStrip r.title))
        (titleWithoutAgency (pyStrip r.title) (pyStrip r.agency))).2 = false →
      (calculate_score w r d).penalty =
        (penaltyLayerA (pyStrip r.title) (normalizeTitle (pyStrip r.title))
          (titleWithoutAgency (pyStrip r.title) (pyStrip r.agency))).1 - 7) := by
  rw [calculate_score_relevant_penalty w r d hrel]
  refine ⟨?_, ?_, ?_⟩
  · intro op p hm hop hsc hsw
    have hA := penaltyLayerA_eq (pyStrip r.title) (normalizeTitle (pyStrip r.title))
      (titleWithoutAgency (pyStrip r.title) (pyStrip r.agency))
    rw [hm] at hA
    simp only [List.map_cons, List.map_nil, List.sum_cons, List.sum_nil,
      List.any_cons, List.any_nil, penaltyContribution, penaltyMitigated,
      hsc, hop, Bool.true_and, if_true, Bool.or_false, add_zero] at hA
    simp only [penaltyTotal, hA, hsw, Bool.not_true, Bool.and_false,
      Bool.false_eq_true, if_false, Bool.and_true]
  · intro hex hns
    simp only [penaltyTotal, hex, hns, Bool.not_false, Bool.and_true, if_true]
  · intro hex hsw hnm
    simp only [penaltyTotal, hex, hsw, hnm, Bool.not_true, Bool.not_false,
      Bool.and_false, Bool.and_true, Bool.true_and, Bool.false_eq_true,
      if_false, if_true]

set_option maxRecDepth 40000 in
/-- C4 witness: a scored record whose only matched penalty phrase is the
operational 운영용역 with the strategic word 전략 present incurs exactly the
mitigated -7 once. -/
theorem C4_witness : (calculate_score [] wrec4 ⟨2026, 10, 12⟩).penalty = -7 :=
  (C4_penalty_two_layer [] wrec4 ⟨2026, 10, 12⟩ (by with_unfolding_all decide)).1
    (("운영용역").toList) (-15) (by with_unfolding_all decide) (by decide)
    (by with_unfolding_all decide) (by with_unfolding_all decide)

/-- C7: the claim's normalization — whitespace stripping plus case
folding — is refuted by this record: the hyphen inside 시스템-구축 keeps the
claim's normalized title from containing any exclusion entry, yet the
scorer, which also strips hyphens and underscores, excludes the record
with 배제:시스템구축. -/
theorem C7_counterexample :
    specExclusionMatch (pyStrip cex7rec.title) = false ∧
      (calculate_score [] cex7rec ⟨2026, 10, 12⟩).exclusion_reason =
        some (exclReason (("시스템구축").toList)) := by
  have v3 : findExclusionKw (normalizeTitle (pyStrip cex7rec.title)) =
      some (("시스템구축").toList) := by decide
  have h1 : deadlinePassed (List.take 10 cex7rec.deadline) ⟨2026, 10, 12⟩ = false :=
    rfl
  constructor
  · decide
  · simp only [calculate_score, h1, Bool.false_eq_true, if_false, v3]

/-- C7: once the deadline filter has passed, the scorer excludes a record
with a keyword reason exactly when some exclusion entry, after space
removal, occurs in the title normalized by removing spaces, hyphens and
underscores (no case folding); the reported keyword is the first matching
entry in table order and the match returns the initial result
immediately. -/
theorem C7_exclusion_keyword_filter (w : List Str) (r : BidRecord) (d : PyDate)
    (h1 : deadlinePassed (r.deadline.take 10) d = false) :
    ((∃ kw ∈ EXCLUSIONS,
        pyIn (removeSpaces kw) (normalizeTitle (pyStrip r.title)) = true) ↔
      (∃ kw, (calculate_score w r d).exclusion_reason = some (exclReason kw))) ∧
    (∀ kw, findExclusionKw (normalizeTitle (pyStrip r.title)) = some kw →
      calculate_score w r d =
        { initResult with exclusion_reason := some (exclReason kw) } ∧
      kw ∈ EXCLUSIONS ∧
      pyIn (removeSpaces kw) (normalizeTitle (pyStrip r.title)) = true ∧
      ∃ pre post, EXCLUSIONS = pre ++ kw :: post ∧
        ∀ k ∈ pre,
          pyIn (removeSpaces k) (normalizeTitle (pyStrip r.title)) = false) := by
  constructor
  · constructor
    · rintro ⟨kw, hmem, hp⟩
      rcases hf : findExclusionKw (normalizeTitle (pyStrip r.title)) with _ | kw2
      · exfalso
        rw [findExclusionKw, List.find?_eq_none] at hf
        exact absurd hp (by simpa using hf kw hmem)
      · refine ⟨kw2, ?_⟩
        simp only [calculate_score, h1, Bool.false_eq_true, if_false, hf]
    · rintro ⟨kw, hres⟩
      rcases hf : findExclusionKw (normalizeTitle (pyStrip r.title)) with _ | kw2
      · exfalso
        revert hres
        simp only [calculate_score, h1, Bool.false_eq_true, if_false, hf]
        split
        · simp
          exact fun hh => (exclReason_ne_budget _ _).symm hh
        · split
          · simp
            exact fun hh => (exclReason_ne_noDomain _).symm hh
          · simp
      · have hspec := List.find?_eq_some.mp (by exact hf)
        exact ⟨kw2, List.mem_of_find?_eq_some hf, by simpa using hspec.1⟩
  · intro kw hf
    have hspec := List.find?_eq_some.mp (by exact hf)
    refine ⟨?_, List.mem_of_find?_eq_some hf, by simpa using hspec.1, ?_⟩
    · simp only [calculate_score, h1, Bool.false_eq_true, if_false, hf]
    · rcases hspec.2 with ⟨pre, post, hlist, hpre⟩
      exact ⟨pre, post, hlist, fun k hk => by simpa using hpre k hk⟩

set_option maxRecDepth 40000 in
/-- C7 witness: the 시스템-구축 record is excluded with a keyword reason,
obtained from the amended filter characterization at the matching entry
시스템구축. -/
theorem C7_witness :
    ∃ kw, (calculate_score [] cex7rec ⟨2026, 10, 12⟩).exclusion_reason =
      some (exclReason kw) :=
  (C7_exclusion_keyword_filter [] cex7rec ⟨2026, 10, 12⟩ (by decide)).1.mp
    ⟨("시스템구축").toList, by decide, by decide⟩

set_option maxRecDepth 40000 in
/-- C8: the claim that scoring does not depend on the ambient clock is
refuted by this record: over the deadline 2026-03-10, the same record
scores as relevant on 2026-03-01 and is excluded as past-deadline on
2026-03-20. -/
theorem C8_counterexample :
    calculate_score [] cex8rec ⟨2026, 3, 1⟩ ≠
      calculate_score [] cex8rec ⟨2026, 3, 20⟩ := by
  with_unfolding_all decide

/-- C8: scoring is a deterministic function of the record's four fields,
the rule tables and the current calendar date: two records equal on
title, agency, raw budget and deadline score identically for the same
partner table and the same date. -/
theorem C8_determinism_given_date (w : List Str) (r1 r2 : BidRecord) (d : PyDate)
    (ht : r1.title = r2.title) (ha : r1.agency = r2.agency)
    (hb : r1.budget_raw = r2.budget_raw) (hd : r1.deadline = r2.deadline) :
    calculate_score w r1 d = calculate_score w r2 d := by
  cases r1
  cases r2
  simp only at ht ha hb hd
  subst ht ha hb hd
  rfl

/-- C8 witness: two syntactically different records with equal fields
score identically. -/
theorem C8_witness :
    calculate_score [] wrec8a ⟨2026, 10, 12⟩ =
      calculate_score [] wrec8b ⟨2026, 10, 12⟩ :=
  C8_determinism_given_date [] wrec8a wrec8b ⟨2026, 10, 12⟩ (by decide) (by decide)
    rfl rfl

/-- C9: the scorer is total and degrades malformed numeric fields to
permissive defaults: a record whose raw budget fails to parse and whose
deadline fails to parse scores exactly like the same record with the 0
budget sentinel and an empty deadline — neither field causes exclusion or
failure. -/
theorem C9_malformed_inputs_degrade (w : List Str) (r : BidRecord) (d : PyDate)
    (hb : parseBudget r.budget_raw = none)
    (hd : parseDate (r.deadline.take 10) = none) :
    calculate_score w r d =
      calculate_score w { r with budget_raw := ("0").toList, deadline := [] } d := by
  have e1 : deadlinePassed (r.deadline.take 10) d = false := by
    unfold deadlinePassed
    rw [hd]
    simp
  have e2 : deadlinePassed (List.take 10 ([] : Str)) d = false := rfl
  have e3 : (parseBudget r.budget_raw).getD 0 = 0 := by rw [hb]; rfl
  have e4 : (parseBudget (("0").toList)).getD 0 = 0 := rfl
  simp only [calculate_score, e1, e2, e3, e4]
  simp only [Bool.false_eq_true, if_false]

/-- C9 witness: a record with budget text abc and deadline text not-a-date
scores exactly like its sanitized twin. -/
theorem C9_witness :
    calculate_score [] wrec9 ⟨2026, 10, 12⟩ =
      calculate_score [] { wrec9 with budget_raw := ("0").toList, deadline := [] }
        ⟨2026, 10, 12⟩ :=
  C9_malformed_inputs_degrade [] wrec9 ⟨2026, 10, 12⟩ (by decide) (by decide)

set_option maxRecDepth 40000 in
/-- C10: fingerprints of titles differing only in interior whitespace and
letter case (same agency) coincide, and the two records collapse to the
first-arrived one in batch dedup; changing the agency changes the
fingerprint on this pair; for any two batches that are permutations of
each other the kept fingerprint multisets coincide; and every kept record
is the first record of its fingerprint in arrival order. -/
theorem C10_fingerprint_dedup :
    (make_fingerprint rcA.title rcA.agency = make_fingerprint rcB.title rcB.agency) ∧
    (fetchDedup [rcA, rcB] = [rcA]) ∧
    (make_fingerprint rcA.title (("AgencyOne").toList) ≠
      make_fingerprint rcA.title (("AgencyTwo").toList)) ∧
    (∀ l1 l2 : List BidRecord, l1.Perm l2 →
      ((fetchDedup l1).map fpOf).Perm ((fetchDedup l2).map fpOf)) ∧
    (∀ (l : List BidRecord) (r : BidRecord), r ∈ fetchDedup l →
      ∃ pre post, l = pre ++ r :: post ∧
        ∀ r2 ∈ pre, (!r2.title.isEmpty) = true → fpOf r2 ≠ fpOf r) := by
  have hnorm : fingerprintNorm rcA.title rcA.agency =
      fingerprintNorm rcB.title rcB.agency := by decide
  have h1 : make_fingerprint rcA.title rcA.agency =
      make_fingerprint rcB.title rcB.agency :=
    congrArg (fun s => (bytesToHex (md5Digest (utf8Encode s))).take 16) hnorm
  refine ⟨h1, ?_, ?_, ?_, ?_⟩
  · unfold fetchDedup
    rw [dedupBids_cons_keep rcA [rcB] [] (by decide) rfl]
    have hfp : ([fpOf rcA] : List Str).contains (fpOf rcB) = true := by
      have h2 : fpOf rcB = fpOf rcA := h1.symm
      rw [h2]
      exact List.elem_iff.mpr (List.mem_cons_self _ _)
    rw [dedupBids_cons_seen rcB [] [fpOf rcA] (by decide) hfp]
    rfl
  · with_unfolding_all decide
  · intro l1 l2 hp
    unfold fetchDedup
    rw [List.perm_ext_iff_of_nodup (dedupBids_nodup l1 []).1 (dedupBids_nodup l2 []).1]
    intro fp
    rw [dedupBids_mem_fp, dedupBids_mem_fp]
    simp only [List.not_mem_nil, not_false_iff, true_and]
    exact ((hp.filter _).map fpOf).mem_iff
  · intro l r h
    obtain ⟨pre, post, hl, _, hpre⟩ := dedupBids_first l [] r h
    exact ⟨pre, post, hl, hpre⟩
